import Mathlib

/-!
Verification of the crcrypt crypto core (src/utils/crypto.js).

The JavaScript functions `deriveKey`, `encrypt`, `decrypt` and
`validateAlgorithmParameters` are embedded shallowly.  The Node `crypto`
library primitives (PBKDF2 and the AES-CBC/GCM ciphers) are external to the
repository, so they appear as an abstract `CipherSuite` parameter; the
contracts the library guarantees are collected in `SuiteSound`.  The process
randomness source is an explicit stream `rng : Nat → Nat`, and the
side effects of a call (random draws, key derivation, cipher construction)
are recorded in order as a `List CryptoEvent`.  Tokens are `List Char`.
-/

namespace CrCrypt

/-- Error kinds surfaced by the crypto core: one per throw site in
src/utils/crypto.js, plus the two failure signals raised by the underlying
cipher library when finalizing decryption. -/
inductive CryptoError where
  | emptyInput
  | invalidAlgorithm
  | keyLengthMismatch
  | ivLengthMismatch
  | malformedToken
  | missingAuthTag
  | authenticationFailed
  | paddingOrKeyError
  deriving DecidableEq, Repr

/-- Observable side effects of a call to the crypto core, recorded in call
order: a randomBytes draw of `n` bytes, a PBKDF2 key derivation, and the
construction of a cipher or decipher object. -/
inductive CryptoEvent where
  | drewRandom (n : Nat)
  | derivedKey
  | createdCipher
  deriving DecidableEq, Repr

/-- Total number of random bytes drawn in an event trace. -/
def randomDrawn (evs : List CryptoEvent) : Nat :=
  (evs.map (fun e => match e with | .drewRandom n => n | _ => 0)).sum

/-- Decidable equality for Except values, used to evaluate the model on
closed inputs. -/
instance instExceptDecEq {ε α : Type} [DecidableEq ε] [DecidableEq α] :
    DecidableEq (Except ε α) := fun x y =>
  match x, y with
  | .error e, .error f =>
    if h : e = f then .isTrue (by rw [h])
    else .isFalse (fun hc => h (Except.error.inj hc))
  | .error _, .ok _ => .isFalse (fun hc => Except.noConfusion hc)
  | .ok _, .error _ => .isFalse (fun hc => Except.noConfusion hc)
  | .ok a, .ok b =>
    if h : a = b then .isTrue (by rw [h])
    else .isFalse (fun hc => h (Except.ok.inj hc))

/-- Lowercase hexadecimal digit for a value below 16, as Node
Buffer.toString with hex encoding produces. -/
def hexDigitChar (n : Nat) : Char :=
  if n < 10 then Char.ofNat (48 + n) else Char.ofNat (87 + n)

/-- The two lowercase hex digits of one byte. -/
def hexEncodeByte (b : Nat) : List Char :=
  [hexDigitChar (b / 16 % 16), hexDigitChar (b % 16)]

/-- Hex encoding of a byte list (lowercase), as Buffer.toString with hex. -/
def hexEncode (bs : List Nat) : List Char :=
  (bs.map hexEncodeByte).flatten

/-- Numeric value of a hexadecimal digit, accepting both cases, as Node
Buffer.from with hex does. -/
def hexVal? (c : Char) : Option Nat :=
  if 48 ≤ c.toNat ∧ c.toNat ≤ 57 then some (c.toNat - 48)
  else if 97 ≤ c.toNat ∧ c.toNat ≤ 102 then some (c.toNat - 87)
  else if 65 ≤ c.toNat ∧ c.toNat ≤ 70 then some (c.toNat - 55)
  else none

/-- Hex decoding as Node Buffer.from(s, hex): consume digit pairs from the
left, stopping at the first invalid pair or dangling digit. -/
def hexDecode : List Char → List Nat
  | c1 :: c2 :: rest =>
    match hexVal? c1, hexVal? c2 with
    | some hi, some lo => (16 * hi + lo) :: hexDecode rest
    | _, _ => []
  | _ => []

/-- Split a character list at a separator character, mirroring JavaScript
String.prototype.split on a one-character separator. -/
def splitSep (sep : Char) : List Char → List (List Char)
  | [] => [[]]
  | c :: cs =>
    match splitSep sep cs with
    | [] => [[]]
    | p :: ps => if c = sep then [] :: p :: ps else (c :: p) :: ps

/-- Substring test mirroring JavaScript String.prototype.includes. -/
def hasSub (pat : List Char) : List Char → Bool
  | [] => pat.isEmpty
  | c :: cs => pat.isPrefixOf (c :: cs) || hasSub pat cs

/-- The string-based mode dispatch of the source: algorithm.includes("gcm"). -/
def algIncludesGcm (algorithm : String) : Bool :=
  hasSub ['g', 'c', 'm'] algorithm.data

/-- Bytes produced by crypto.randomBytes n, reading the process randomness
stream starting at a given offset. -/
def randBytes (rng : Nat → Nat) (off n : Nat) : List Nat :=
  (List.range n).map (fun i => rng (off + i) % 256)

/-- The algorithmSpecs table inside validateAlgorithmParameters: required key
length and IV length in bytes for each supported algorithm identifier. -/
def algorithmSpecs (algorithm : String) : Option (Nat × Nat) :=
  if algorithm = "aes-256-cbc" then some (32, 16)
  else if algorithm = "aes-256-gcm" then some (32, 12)
  else if algorithm = "aes-128-gcm" then some (16, 12)
  else if algorithm = "aes-128-cbc" then some (16, 16)
  else if algorithm = "aes-192-cbc" then some (24, 16)
  else if algorithm = "aes-192-gcm" then some (24, 12)
  else none

/-- validateAlgorithmParameters from src/utils/crypto.js: unknown algorithm,
then key length, then IV length. -/
def validateAlgorithmParameters (algorithm : String) (keyLength ivLength : Nat) :
    Except CryptoError Unit :=
  match algorithmSpecs algorithm with
  | none => .error .invalidAlgorithm
  | some spec =>
    if keyLength ≠ spec.1 then .error .keyLengthMismatch
    else if ivLength ≠ spec.2 then .error .ivLengthMismatch
    else .ok ()

/-- Abstract interface to the Node crypto primitives called by the core:
PBKDF2-HMAC-SHA256 and the AES cipher in CBC and GCM modes.  These live in
the Node standard library, outside this repository, so the model takes them
as a parameter.  `gcmEnc` returns the ciphertext together with the
authentication tag; the decryption primitives return an error when
finalization fails (GCM tag mismatch, CBC bad padding). -/
structure CipherSuite where
  pbkdf2 : String → List Nat → Nat → Nat → List Nat
  cbcEnc : String → List Nat → List Nat → String → List Nat
  cbcDec : String → List Nat → List Nat → List Nat → Except Unit String
  gcmEnc : String → List Nat → List Nat → String → List Nat × List Nat
  gcmDec : String → List Nat → List Nat → List Nat → List Nat → Except Unit String

/-- Contracts the Node crypto library guarantees for its primitives:
byte-valued outputs, exact PBKDF2 output length, and cipher round-trips
under a matching key and IV. -/
structure SuiteSound (suite : CipherSuite) : Prop where
  pbkdf2Len : ∀ pw salt it kL, (suite.pbkdf2 pw salt it kL).length = kL
  cbcBytes : ∀ alg key iv t, ∀ b ∈ suite.cbcEnc alg key iv t, b < 256
  gcmCtBytes : ∀ alg key iv t, ∀ b ∈ (suite.gcmEnc alg key iv t).1, b < 256
  gcmTagBytes : ∀ alg key iv t, ∀ b ∈ (suite.gcmEnc alg key iv t).2, b < 256
  cbcRound : ∀ alg key iv t, suite.cbcDec alg key iv (suite.cbcEnc alg key iv t) = .ok t
  gcmRound : ∀ alg key iv t,
    suite.gcmDec alg key iv (suite.gcmEnc alg key iv t).1 (suite.gcmEnc alg key iv t).2 = .ok t

/-- deriveKey from src/utils/crypto.js: crypto.pbkdf2Sync with sha256. -/
def deriveKey (suite : CipherSuite) (password : String) (salt : List Nat)
    (iterations keyLength : Nat) : List Nat :=
  suite.pbkdf2 password salt iterations keyLength

/-- encrypt from src/utils/crypto.js.  The empty-text check comes first; the
salt and IV are drawn from the randomness stream before parameter validation
runs; on success the token is the colon-separated hex fields salt, IV,
ciphertext and, for GCM algorithms, the authentication tag. -/
def encrypt (suite : CipherSuite) (rng : Nat → Nat) (password text : String)
    (saltLength ivLength : Nat) (algorithm : String) (iterations keyLength : Nat) :
    Except CryptoError (List Char) × List CryptoEvent :=
  if text = "" then (.error .emptyInput, [])
  else
    let salt := randBytes rng 0 saltLength
    let iv := randBytes rng saltLength ivLength
    match validateAlgorithmParameters algorithm keyLength ivLength with
    | .error e => (.error e, [.drewRandom saltLength, .drewRandom ivLength])
    | .ok _ =>
      let key := deriveKey suite password salt iterations keyLength
      let evs : List CryptoEvent :=
        [.drewRandom saltLength, .drewRandom ivLength, .derivedKey, .createdCipher]
      if algIncludesGcm algorithm then
        let ct := (suite.gcmEnc algorithm key iv text).1
        let tag := (suite.gcmEnc algorithm key iv text).2
        (.ok (hexEncode salt ++ ':' :: (hexEncode iv ++ ':' ::
              (hexEncode ct ++ ':' :: hexEncode tag))), evs)
      else
        let ct := suite.cbcEnc algorithm key iv text
        (.ok (hexEncode salt ++ ':' :: (hexEncode iv ++ ':' :: hexEncode ct)), evs)

/-- Body of decrypt from src/utils/crypto.js, after the token has been split
at colons.  Fewer than 3 fields is rejected; salt and IV are hex-decoded from
fields 0 and 1, the ciphertext is field 2, and a fourth field, when present,
is hex-decoded as the authentication tag; validation runs against the decoded
IV length; GCM requires the tag and maps a finalization failure to an
authentication failure, CBC maps it to a padding or key error. -/
def decryptParts (suite : CipherSuite) (password : String) (parts : List (List Char))
    (algorithm : String) (iterations keyLength : Nat) :
    Except CryptoError String × List CryptoEvent :=
  match parts with
  | [] => (.error .malformedToken, [])
  | [_] => (.error .malformedToken, [])
  | [_, _] => (.error .malformedToken, [])
  | p0 :: p1 :: p2 :: rest =>
    let salt := hexDecode p0
    let iv := hexDecode p1
    let encrypted := p2
    let tag : Option (List Nat) :=
      match rest with
      | p3 :: _ => some (hexDecode p3)
      | [] => none
    match validateAlgorithmParameters algorithm keyLength iv.length with
    | .error e => (.error e, [])
    | .ok _ =>
      let key := deriveKey suite password salt iterations keyLength
      if algIncludesGcm algorithm then
        match tag with
        | none => (.error .missingAuthTag, [.derivedKey, .createdCipher])
        | some t =>
          match suite.gcmDec algorithm key iv (hexDecode encrypted) t with
          | .ok s => (.ok s, [.derivedKey, .createdCipher])
          | .error _ => (.error .authenticationFailed, [.derivedKey, .createdCipher])
      else
        match suite.cbcDec algorithm key iv (hexDecode encrypted) with
        | .ok s => (.ok s, [.derivedKey, .createdCipher])
        | .error _ => (.error .paddingOrKeyError, [.derivedKey, .createdCipher])

/-- decrypt from src/utils/crypto.js: split the token at colons and process
the fields. -/
def decrypt (suite : CipherSuite) (password : String) (encryptedText : List Char)
    (algorithm : String) (iterations keyLength : Nat) :
    Except CryptoError String × List CryptoEvent :=
  decryptParts suite password (splitSep ':' encryptedText) algorithm iterations keyLength

/-- The six supported algorithm identifiers, as listed in the spec. -/
def supportedAlgorithms : List String :=
  ["aes-256-cbc", "aes-256-gcm", "aes-128-gcm", "aes-128-cbc", "aes-192-cbc", "aes-192-gcm"]

/-- Modelled from the spec: the required key length is 32/24/16 bytes for the
AES-256/192/128 variants. -/
def specKeyLength (algorithm : String) : Nat :=
  if hasSub ['2', '5', '6'] algorithm.data then 32
  else if hasSub ['1', '9', '2'] algorithm.data then 24
  else 16

/-- Modelled from the spec: the required IV length is 16 bytes for CBC and 12
bytes for GCM. -/
def specIVLength (algorithm : String) : Nat :=
  if algIncludesGcm algorithm then 12 else 16

/-- Modelled from the spec: the validation contract of section 4.1 — reject
unknown algorithms, then a key length that differs from the required one,
then an IV length that differs from the required one, otherwise succeed. -/
def specValidate (algorithm : String) (keyLength ivLength : Nat) :
    Except CryptoError Unit :=
  if algorithm ∉ supportedAlgorithms then .error .invalidAlgorithm
  else if keyLength ≠ specKeyLength algorithm then .error .keyLengthMismatch
  else if ivLength ≠ specIVLength algorithm then .error .ivLengthMismatch
  else .ok ()

/-- Character class of the lowercase hexadecimal alphabet 0-9, a-f. -/
def isLowerHexChar (c : Char) : Bool :=
  (48 ≤ c.toNat && c.toNat ≤ 57) || (97 ≤ c.toNat && c.toNat ≤ 102)

/-- Injective byte encoding of a string, four bytes per character in
little-endian order; stands in for the text-to-byte conversion a concrete
cipher performs when the model is evaluated on closed inputs. -/
def encodeChars : List Char → List Nat
  | [] => []
  | ch :: cs =>
    ch.toNat % 256 :: ch.toNat / 256 % 256 :: ch.toNat / 65536 % 256 ::
      ch.toNat / 16777216 % 256 :: encodeChars cs

/-- Inverse of encodeChars on its image. -/
def decodeChars : List Nat → List Char
  | b0 :: b1 :: b2 :: b3 :: rest =>
    Char.ofNat (b0 + 256 * b1 + 65536 * b2 + 16777216 * b3) :: decodeChars rest
  | _ => []

/-- Bytes of a string under the four-byte character encoding. -/
def strToBytes (s : String) : List Nat := encodeChars s.data

/-- String rebuilt from bytes of the four-byte character encoding. -/
def bytesToStr (bs : List Nat) : String := String.mk (decodeChars bs)

/-- Concrete cipher suite for evaluating the model on closed inputs: the
derived key is a function of password and salt, a CBC ciphertext is the key
followed by the message bytes, and a GCM tag is the key itself, so both
ciphers reject a mismatched key and satisfy the contracts in SuiteSound. -/
def modelSuite : CipherSuite where
  pbkdf2 := fun pw salt _ kL =>
    (List.range kL).map (fun j => (pw.length + salt.sum + j) % 256)
  cbcEnc := fun _ key _ t => key.map (· % 256) ++ strToBytes t
  cbcDec := fun _ key _ ct =>
    if ct.take key.length = key.map (· % 256) then
      .ok (bytesToStr (ct.drop key.length))
    else .error ()
  gcmEnc := fun _ key _ t => (strToBytes t, key.map (· % 256))
  gcmDec := fun _ key _ ct tag =>
    if tag = key.map (· % 256) then .ok (bytesToStr ct) else .error ()

lemma hexDigitChar_isLowerHex : ∀ n < 16, isLowerHexChar (hexDigitChar n) = true := by
  decide

lemma isLowerHexChar_ne_colon {c : Char} (h : isLowerHexChar c = true) : c ≠ ':' := by
  intro hc
  subst hc
  exact absurd h (by decide)

lemma mem_hexEncodeByte_isLowerHex {b : Nat} :
    ∀ c ∈ hexEncodeByte b, isLowerHexChar c = true := by
  intro c hc
  simp only [hexEncodeByte, List.mem_cons, List.not_mem_nil, or_false] at hc
  rcases hc with rfl | rfl
  · exact hexDigitChar_isLowerHex _ (Nat.mod_lt _ (by omega))
  · exact hexDigitChar_isLowerHex _ (Nat.mod_lt _ (by omega))

lemma mem_hexEncode_isLowerHex {bs : List Nat} :
    ∀ c ∈ hexEncode bs, isLowerHexChar c = true := by
  intro c hc
  rcases List.mem_flatten.mp hc with ⟨l, hl, hcl⟩
  rcases List.mem_map.mp hl with ⟨b, _, rfl⟩
  exact mem_hexEncodeByte_isLowerHex c hcl

lemma colon_not_mem_hexEncode {bs : List Nat} : ':' ∉ hexEncode bs := by
  intro h
  exact isLowerHexChar_ne_colon (mem_hexEncode_isLowerHex _ h) rfl

lemma splitSep_ne_nil (sep : Char) (l : List Char) : splitSep sep l ≠ [] := by
  cases l with
  | nil => simp [splitSep]
  | cons c cs =>
    simp only [splitSep]
    cases splitSep sep cs with
    | nil => simp
    | cons p ps =>
      by_cases h : c = sep <;> simp [h]

lemma splitSep_no_sep {sep : Char} {a : List Char} (h : sep ∉ a) :
    splitSep sep a = [a] := by
  induction a with
  | nil => rfl
  | cons c cs ih =>
    have hc : c ≠ sep := fun he => h (he ▸ List.mem_cons_self c cs)
    have hcs : sep ∉ cs := fun hm => h (List.mem_cons_of_mem c hm)
    simp [splitSep, ih hcs, hc]

lemma splitSep_append {sep : Char} {a : List Char} (r : List Char) (h : sep ∉ a) :
    splitSep sep (a ++ sep :: r) = a :: splitSep sep r := by
  induction a with
  | nil =>
    simp only [List.nil_append, splitSep]
    cases hr : splitSep sep r with
    | nil => exact absurd hr (splitSep_ne_nil sep r)
    | cons p ps => simp
  | cons c cs ih =>
    have hc : c ≠ sep := fun he => h (he ▸ List.mem_cons_self c cs)
    have hcs : sep ∉ cs := fun hm => h (List.mem_cons_of_mem c hm)
    have hstep : splitSep sep ((c :: cs) ++ sep :: r) =
        match splitSep sep (cs ++ sep :: r) with
        | [] => [[]]
        | p :: ps => if c = sep then [] :: p :: ps else (c :: p) :: ps := rfl
    rw [hstep, ih hcs]
    simp [hc]

lemma hexVal?_hexDigitChar : ∀ n < 16, hexVal? (hexDigitChar n) = some n := by
  decide

lemma hexDecode_hexEncode {bs : List Nat} (h : ∀ b ∈ bs, b < 256) :
    hexDecode (hexEncode bs) = bs := by
  induction bs with
  | nil => rfl
  | cons b bs ih =>
    have hb : b < 256 := h b (List.mem_cons_self b bs)
    have hbs : ∀ x ∈ bs, x < 256 := fun x hx => h x (List.mem_cons_of_mem b hx)
    have e1 : hexVal? (hexDigitChar (b / 16 % 16)) = some (b / 16 % 16) :=
      hexVal?_hexDigitChar _ (Nat.mod_lt _ (by omega))
    have e2 : hexVal? (hexDigitChar (b % 16)) = some (b % 16) :=
      hexVal?_hexDigitChar _ (Nat.mod_lt _ (by omega))
    have hcons : hexEncode (b :: bs) =
        hexDigitChar (b / 16 % 16) :: hexDigitChar (b % 16) :: hexEncode bs := by
      simp [hexEncode, hexEncodeByte]
    rw [hcons]
    simp only [hexDecode, e1, e2]
    rw [ih hbs]
    have harith : 16 * (b / 16 % 16) + b % 16 = b := by omega
    rw [harith]

lemma randBytes_length (rng : Nat → Nat) (off n : Nat) :
    (randBytes rng off n).length = n := by
  simp [randBytes]

lemma randBytes_lt (rng : Nat → Nat) (off n : Nat) :
    ∀ b ∈ randBytes rng off n, b < 256 := by
  intro b hb
  rcases List.mem_map.mp hb with ⟨i, _, rfl⟩
  exact Nat.mod_lt _ (by omega)

lemma splitSep_token3 (s i c : List Nat) :
    splitSep ':' (hexEncode s ++ ':' :: (hexEncode i ++ ':' :: hexEncode c))
      = [hexEncode s, hexEncode i, hexEncode c] := by
  rw [splitSep_append _ colon_not_mem_hexEncode,
      splitSep_append _ colon_not_mem_hexEncode,
      splitSep_no_sep colon_not_mem_hexEncode]

lemma splitSep_token4 (s i c t : List Nat) :
    splitSep ':' (hexEncode s ++ ':' :: (hexEncode i ++ ':' ::
        (hexEncode c ++ ':' :: hexEncode t)))
      = [hexEncode s, hexEncode i, hexEncode c, hexEncode t] := by
  rw [splitSep_append _ colon_not_mem_hexEncode,
      splitSep_append _ colon_not_mem_hexEncode,
      splitSep_append _ colon_not_mem_hexEncode,
      splitSep_no_sep colon_not_mem_hexEncode]

lemma validate_ok {alg : String} {spec : Nat × Nat}
    (h : algorithmSpecs alg = some spec) :
    validateAlgorithmParameters alg spec.1 spec.2 = .ok () := by
  simp [validateAlgorithmParameters, h]

lemma decrypt_token3_cbc {suite : CipherSuite} {pw : String} {s i c : List Nat}
    {alg : String} {it kL : Nat}
    (hg : algIncludesGcm alg = false)
    (hs : ∀ b ∈ s, b < 256) (hi : ∀ b ∈ i, b < 256) (hc : ∀ b ∈ c, b < 256)
    (hv : validateAlgorithmParameters alg kL i.length = .ok ()) :
    decrypt suite pw (hexEncode s ++ ':' :: (hexEncode i ++ ':' :: hexEncode c))
        alg it kL =
      match suite.cbcDec alg (deriveKey suite pw s it kL) i c with
      | .ok out => (.ok out, [.derivedKey, .createdCipher])
      | .error _ => (.error .paddingOrKeyError, [.derivedKey, .createdCipher]) := by
  unfold decrypt
  rw [splitSep_token3]
  unfold decryptParts
  simp [hexDecode_hexEncode hs, hexDecode_hexEncode hi, hexDecode_hexEncode hc, hv, hg]

lemma decrypt_token3_gcm {suite : CipherSuite} {pw : String} {s i c : List Nat}
    {alg : String} {it kL : Nat}
    (hg : algIncludesGcm alg = true)
    (hi : ∀ b ∈ i, b < 256)
    (hv : validateAlgorithmParameters alg kL i.length = .ok ()) :
    decrypt suite pw (hexEncode s ++ ':' :: (hexEncode i ++ ':' :: hexEncode c))
        alg it kL =
      (.error .missingAuthTag, [.derivedKey, .createdCipher]) := by
  unfold decrypt
  rw [splitSep_token3]
  unfold decryptParts
  simp [hexDecode_hexEncode hi, hv, hg]

lemma decrypt_token4_gcm {suite : CipherSuite} {pw : String} {s i c t : List Nat}
    {alg : String} {it kL : Nat}
    (hg : algIncludesGcm alg = true)
    (hs : ∀ b ∈ s, b < 256) (hi : ∀ b ∈ i, b < 256) (hc : ∀ b ∈ c, b < 256)
    (ht : ∀ b ∈ t, b < 256)
    (hv : validateAlgorithmParameters alg kL i.length = .ok ()) :
    decrypt suite pw (hexEncode s ++ ':' :: (hexEncode i ++ ':' ::
        (hexEncode c ++ ':' :: hexEncode t))) alg it kL =
      match suite.gcmDec alg (deriveKey suite pw s it kL) i c t with
      | .ok out => (.ok out, [.derivedKey, .createdCipher])
      | .error _ => (.error .authenticationFailed, [.derivedKey, .createdCipher]) := by
  unfold decrypt
  rw [splitSep_token4]
  unfold decryptParts
  simp [hexDecode_hexEncode hs, hexDecode_hexEncode hi, hexDecode_hexEncode hc,
    hexDecode_hexEncode ht, hv, hg]

/-- C3: validateAlgorithmParameters realizes the spec's validation contract —
InvalidAlgorithm for identifiers outside the six supported values, otherwise
KeyLengthMismatch when the key length differs from the required 32/24/16
bytes for AES-256/192/128, otherwise IVLengthMismatch when the IV length
differs from the required 16 (CBC) or 12 (GCM) bytes, otherwise success. -/
theorem validateAlgorithmParameters_eq_specValidate (alg : String) (kL ivL : Nat) :
    validateAlgorithmParameters alg kL ivL = specValidate alg kL ivL := by
  by_cases h1 : alg = "aes-256-cbc"
  · subst h1
    have ha : algorithmSpecs "aes-256-cbc" = some (32, 16) := by decide
    have hm : ("aes-256-cbc" : String) ∈ supportedAlgorithms := by decide
    have hk : specKeyLength "aes-256-cbc" = 32 := by decide
    have hi : specIVLength "aes-256-cbc" = 16 := by decide
    simp [validateAlgorithmParameters, ha, specValidate, hm, hk, hi]
  by_cases h2 : alg = "aes-256-gcm"
  · subst h2
    have ha : algorithmSpecs "aes-256-gcm" = some (32, 12) := by decide
    have hm : ("aes-256-gcm" : String) ∈ supportedAlgorithms := by decide
    have hk : specKeyLength "aes-256-gcm" = 32 := by decide
    have hi : specIVLength "aes-256-gcm" = 12 := by decide
    simp [validateAlgorithmParameters, ha, specValidate, hm, hk, hi]
  by_cases h3 : alg = "aes-128-gcm"
  · subst h3
    have ha : algorithmSpecs "aes-128-gcm" = some (16, 12) := by decide
    have hm : ("aes-128-gcm" : String) ∈ supportedAlgorithms := by decide
    have hk : specKeyLength "aes-128-gcm" = 16 := by decide
    have hi : specIVLength "aes-128-gcm" = 12 := by decide
    simp [validateAlgorithmParameters, ha, specValidate, hm, hk, hi]
  by_cases h4 : alg = "aes-128-cbc"
  · subst h4
    have ha : algorithmSpecs "aes-128-cbc" = some (16, 16) := by decide
    have hm : ("aes-128-cbc" : String) ∈ supportedAlgorithms := by decide
    have hk : specKeyLength "aes-128-cbc" = 16 := by decide
    have hi : specIVLength "aes-128-cbc" = 16 := by decide
    simp [validateAlgorithmParameters, ha, specValidate, hm, hk, hi]
  by_cases h5 : alg = "aes-192-cbc"
  · subst h5
    have ha : algorithmSpecs "aes-192-cbc" = some (24, 16) := by decide
    have hm : ("aes-192-cbc" : String) ∈ supportedAlgorithms := by decide
    have hk : specKeyLength "aes-192-cbc" = 24 := by decide
    have hi : specIVLength "aes-192-cbc" = 16 := by decide
    simp [validateAlgorithmParameters, ha, specValidate, hm, hk, hi]
  by_cases h6 : alg = "aes-192-gcm"
  · subst h6
    have ha : algorithmSpecs "aes-192-gcm" = some (24, 12) := by decide
    have hm : ("aes-192-gcm" : String) ∈ supportedAlgorithms := by decide
    have hk : specKeyLength "aes-192-gcm" = 24 := by decide
    have hi : specIVLength "aes-192-gcm" = 12 := by decide
    simp [validateAlgorithmParameters, ha, specValidate, hm, hk, hi]
  · have ha : algorithmSpecs alg = none := by
      simp [algorithmSpecs, h1, h2, h3, h4, h5, h6]
    have hm : alg ∉ supportedAlgorithms := by
      simp [supportedAlgorithms, h1, h2, h3, h4, h5, h6]
    simp [validateAlgorithmParameters, ha, specValidate, hm]

lemma decodeChars_encodeChars (cs : List Char) : decodeChars (encodeChars cs) = cs := by
  induction cs with
  | nil => rfl
  | cons ch cs ih =>
    have hlt : ch.toNat < 4294967296 := ch.val.toNat_lt_size
    have harith : ch.toNat % 256 + 256 * (ch.toNat / 256 % 256)
        + 65536 * (ch.toNat / 65536 % 256) + 16777216 * (ch.toNat / 16777216 % 256)
        = ch.toNat := by omega
    simp only [encodeChars, decodeChars, ih, harith, Char.ofNat_toNat]

lemma bytesToStr_strToBytes (s : String) : bytesToStr (strToBytes s) = s := by
  cases s with
  | mk data => simp [bytesToStr, strToBytes, decodeChars_encodeChars]

lemma encodeChars_lt (cs : List Char) : ∀ b ∈ encodeChars cs, b < 256 := by
  induction cs with
  | nil => simp [encodeChars]
  | cons ch cs ih =>
    intro b hb
    simp only [encodeChars, List.mem_cons] at hb
    rcases hb with rfl | rfl | rfl | rfl | hb
    · exact Nat.mod_lt _ (by omega)
    · exact Nat.mod_lt _ (by omega)
    · exact Nat.mod_lt _ (by omega)
    · exact Nat.mod_lt _ (by omega)
    · exact ih b hb

lemma strToBytes_lt (s : String) : ∀ b ∈ strToBytes s, b < 256 :=
  encodeChars_lt s.data

lemma modelSuite_sound : SuiteSound modelSuite := by
  constructor
  · intro pw salt it kL
    simp [modelSuite]
  · intro alg key iv t b hb
    rcases List.mem_append.mp hb with h | h
    · rcases List.mem_map.mp h with ⟨x, _, rfl⟩
      exact Nat.mod_lt _ (by omega)
    · exact strToBytes_lt t b h
  · intro alg key iv t b hb
    exact strToBytes_lt t b hb
  · intro alg key iv t b hb
    rcases List.mem_map.mp hb with ⟨x, _, rfl⟩
    exact Nat.mod_lt _ (by omega)
  · intro alg key iv t
    have htake : (key.map (· % 256) ++ strToBytes t).take key.length
        = key.map (· % 256) :=
      List.take_left' (List.length_map key _)
    have hdrop : (key.map (· % 256) ++ strToBytes t).drop key.length
        = strToBytes t :=
      List.drop_left' (List.length_map key _)
    simp [modelSuite, htake, hdrop, bytesToStr_strToBytes]
  · intro alg key iv t
    simp [modelSuite, bytesToStr_strToBytes]

/-- C1: round-trip — for every supported algorithm, every non-empty
plaintext, every password, every salt length, every iteration count, and key
and IV lengths matching the algorithm's spec, decrypting the token produced
by encrypt with the same password, algorithm, iterations and keyLength
returns the original plaintext exactly, given the contracts of the external
cipher library. -/
theorem encrypt_decrypt_roundtrip (suite : CipherSuite) (hS : SuiteSound suite)
    (rng : Nat → Nat) (pw text : String) (sL : Nat) (alg : String)
    (it kL ivL : Nat) (spec : Nat × Nat)
    (hspec : algorithmSpecs alg = some spec)
    (hkL : kL = spec.1) (hivL : ivL = spec.2) (htext : text ≠ "") :
    ∃ tok, (encrypt suite rng pw text sL ivL alg it kL).1 = .ok tok ∧
      (decrypt suite pw tok alg it kL).1 = .ok text := by
  subst hkL
  subst hivL
  have hv : validateAlgorithmParameters alg spec.1 spec.2 = .ok () := validate_ok hspec
  have hsalt := randBytes_lt rng 0 sL
  have hiv := randBytes_lt rng sL spec.2
  have hivlen : (randBytes rng sL spec.2).length = spec.2 := randBytes_length _ _ _
  have hv' : validateAlgorithmParameters alg spec.1 (randBytes rng sL spec.2).length
      = .ok () := by rw [hivlen]; exact hv
  cases hg : algIncludesGcm alg with
  | false =>
    refine ⟨hexEncode (randBytes rng 0 sL) ++ ':' ::
        (hexEncode (randBytes rng sL spec.2) ++ ':' ::
          hexEncode (suite.cbcEnc alg
            (deriveKey suite pw (randBytes rng 0 sL) it spec.1)
            (randBytes rng sL spec.2) text)), ?_, ?_⟩
    · unfold encrypt
      simp [htext, hv, hg]
    · rw [decrypt_token3_cbc hg hsalt hiv (hS.cbcBytes _ _ _ _) hv']
      rw [hS.cbcRound]
  | true =>
    refine ⟨hexEncode (randBytes rng 0 sL) ++ ':' ::
        (hexEncode (randBytes rng sL spec.2) ++ ':' ::
          (hexEncode ((suite.gcmEnc alg
              (deriveKey suite pw (randBytes rng 0 sL) it spec.1)
              (randBytes rng sL spec.2) text)).1 ++ ':' ::
            hexEncode ((suite.gcmEnc alg
              (deriveKey suite pw (randBytes rng 0 sL) it spec.1)
              (randBytes rng sL spec.2) text)).2)), ?_, ?_⟩
    · unfold encrypt
      simp [htext, hv, hg]
    · rw [decrypt_token4_gcm hg hsalt hiv (hS.gcmCtBytes _ _ _ _)
        (hS.gcmTagBytes _ _ _ _) hv']
      rw [hS.gcmRound]

/-- Witness for C1 at a concrete input. -/
theorem encrypt_decrypt_roundtrip_witness :
    ∃ tok, (encrypt modelSuite (fun _ => 0) "pw" "hi" 4 16 "aes-256-cbc"
        1000 32).1 = .ok tok ∧
      (decrypt modelSuite "pw" tok "aes-256-cbc" 1000 32).1 = .ok "hi" :=
  encrypt_decrypt_roundtrip modelSuite modelSuite_sound (fun _ => 0) "pw" "hi" 4
    "aes-256-cbc" 1000 32 16 (32, 16) (by decide) rfl rfl (by decide)

/-- C7: encrypt called with an empty plaintext fails with EmptyInput for
every password, randomness and parameter tuple, producing no token and no
side effects. -/
theorem encrypt_empty_input (suite : CipherSuite) (rng : Nat → Nat) (pw : String)
    (sL ivL : Nat) (alg : String) (it kL : Nat) :
    encrypt suite rng pw "" sL ivL alg it kL = (.error .emptyInput, []) := by
  unfold encrypt
  simp

/-- C10: for every CBC algorithm, a token with four or more colon-delimited
fields is not rejected and decrypt behaves exactly as on the token's first
three fields — the fourth field is decoded as a tag but never used on the
CBC path, and fields beyond the fourth are ignored. -/
theorem decrypt_cbc_ignores_extra_fields (suite : CipherSuite) (pw : String)
    (tok p0 p1 p2 p3 : List Char) (rest : List (List Char)) (alg : String)
    (it kL : Nat)
    (halg : alg ∈ ["aes-256-cbc", "aes-128-cbc", "aes-192-cbc"])
    (hsp : splitSep ':' tok = p0 :: p1 :: p2 :: p3 :: rest) :
    decrypt suite pw tok alg it kL = decryptParts suite pw [p0, p1, p2] alg it kL := by
  have hg : algIncludesGcm alg = false := by
    simp only [List.mem_cons, List.not_mem_nil, or_false] at halg
    rcases halg with rfl | rfl | rfl <;> decide
  unfold decrypt
  rw [hsp]
  cases hval : validateAlgorithmParameters alg kL (hexDecode p1).length with
  | error e => simp [decryptParts, hval]
  | ok u => simp [decryptParts, hval, hg]

/-- Witness for C10 at a concrete input. -/
theorem decrypt_cbc_ignores_extra_fields_witness :
    decrypt modelSuite "p" ("00:00:00:00:00".data) "aes-256-cbc" 1 32
      = decryptParts modelSuite "p" ["00".data, "00".data, "00".data]
          "aes-256-cbc" 1 32 :=
  decrypt_cbc_ignores_extra_fields modelSuite "p" ("00:00:00:00:00".data)
    ("00".data) ("00".data) ("00".data) ("00".data) [("00".data)] "aes-256-cbc"
    1 32 (by decide) (by decide)

/-- C4 (amended): a token splitting into fewer than 3 colon-delimited fields
always fails with MalformedToken; and for a GCM algorithm a token with
exactly 3 fields fails with MissingAuthTag provided parameter validation
passes, that is, keyLength matches the algorithm's required key length and
the decoded IV has the required IV length (otherwise the corresponding
validation error fires first). -/
theorem decrypt_malformed_or_missing_tag :
    (∀ (suite : CipherSuite) (pw : String) (tok : List Char) (alg : String)
        (it kL : Nat), (splitSep ':' tok).length < 3 →
      decrypt suite pw tok alg it kL = (.error .malformedToken, [])) ∧
    (∀ (suite : CipherSuite) (pw : String) (tok p0 p1 p2 : List Char)
        (alg : String) (it kL : Nat) (spec : Nat × Nat),
      splitSep ':' tok = [p0, p1, p2] → algIncludesGcm alg = true →
      algorithmSpecs alg = some spec → kL = spec.1 →
      (hexDecode p1).length = spec.2 →
      decrypt suite pw tok alg it kL
        = (.error .missingAuthTag, [.derivedKey, .createdCipher])) := by
  constructor
  · intro suite pw tok alg it kL hlen
    cases hsp : splitSep ':' tok with
    | nil => unfold decrypt; rw [hsp]; rfl
    | cons p0 r =>
      cases r with
      | nil => unfold decrypt; rw [hsp]; rfl
      | cons p1 r2 =>
        cases r2 with
        | nil => unfold decrypt; rw [hsp]; rfl
        | cons p2 r3 =>
          rw [hsp] at hlen
          simp only [List.length_cons] at hlen
          omega
  · intro suite pw tok p0 p1 p2 alg it kL spec hsp hg hspec hkL hlen
    subst hkL
    have hv : validateAlgorithmParameters alg spec.1 (hexDecode p1).length
        = .ok () := by
      rw [hlen]
      exact validate_ok hspec
    unfold decrypt
    rw [hsp]
    simp [decryptParts, hv, hg]

/-- Counterexample to C4 as stated: for a GCM algorithm and a 3-field token
whose IV field does not decode to the required IV length, decrypt fails with
IVLengthMismatch, not MissingAuthTag. -/
theorem decrypt_gcm_three_fields_not_missing_tag :
    (decrypt modelSuite "p" ("00:00:00".data) "aes-256-gcm" 1 32).1
      = .error .ivLengthMismatch ∧
    (CryptoError.ivLengthMismatch ≠ CryptoError.missingAuthTag) := by
  decide

/-- Witness for C4 at concrete inputs, one per conjunct. -/
theorem decrypt_malformed_or_missing_tag_witness :
    decrypt modelSuite "p" ("ab".data) "aes-256-gcm" 1 32
      = (.error .malformedToken, []) ∧
    decrypt modelSuite "p" ("00:000000000000000000000000:00".data) "aes-256-gcm"
        1 32 = (.error .missingAuthTag, [.derivedKey, .createdCipher]) :=
  ⟨decrypt_malformed_or_missing_tag.1 modelSuite "p" ("ab".data) "aes-256-gcm"
      1 32 (by decide),
   decrypt_malformed_or_missing_tag.2 modelSuite "p"
      ("00:000000000000000000000000:00".data) ("00".data)
      ("000000000000000000000000".data) ("00".data) "aes-256-gcm" 1 32 (32, 12)
      (by decide) (by decide) (by decide) rfl (by decide)⟩

/-- C6 (amended): decrypt validates against the byte length of the IV decoded
from the token's second field, so a token of at least 3 fields whose decoded
IV length differs from the algorithm's required IV length fails with
IVLengthMismatch before key derivation or decipher construction, provided
the algorithm is supported and keyLength matches its required key length
(otherwise InvalidAlgorithm or KeyLengthMismatch fires first). -/
theorem decrypt_decoded_iv_mismatch (suite : CipherSuite) (pw : String)
    (tok p0 p1 p2 : List Char) (rest : List (List Char)) (alg : String)
    (it kL : Nat) (spec : Nat × Nat)
    (hsp : splitSep ':' tok = p0 :: p1 :: p2 :: rest)
    (hspec : algorithmSpecs alg = some spec) (hkL : kL = spec.1)
    (hlen : (hexDecode p1).length ≠ spec.2) :
    decrypt suite pw tok alg it kL = (.error .ivLengthMismatch, []) := by
  subst hkL
  have hv : validateAlgorithmParameters alg spec.1 (hexDecode p1).length
      = .error .ivLengthMismatch := by
    simp [validateAlgorithmParameters, hspec, hlen]
  unfold decrypt
  rw [hsp]
  simp [decryptParts, hv]

/-- Counterexample to C6 as stated: when keyLength also differs from the
required key length, decrypt fails with KeyLengthMismatch even though the
decoded IV length is wrong, not with IVLengthMismatch. -/
theorem decrypt_decoded_iv_mismatch_preempted :
    (decrypt modelSuite "p" ("00:0000:00".data) "aes-256-cbc" 1 16).1
      = .error .keyLengthMismatch ∧
    (CryptoError.keyLengthMismatch ≠ CryptoError.ivLengthMismatch) := by
  decide

/-- Witness for C6 at a concrete input. -/
theorem decrypt_decoded_iv_mismatch_witness :
    decrypt modelSuite "p" ("00:0000:00".data) "aes-256-cbc" 1 32
      = (.error .ivLengthMismatch, []) :=
  decrypt_decoded_iv_mismatch modelSuite "p" ("00:0000:00".data) ("00".data)
    ("0000".data) ("00".data) [] "aes-256-cbc" 1 32 (32, 16) (by decide)
    (by decide) rfl (by decide)

/-- C2 (amended): with a supported algorithm and a keyLength differing from
its required key length, encrypt (on non-empty text) and decrypt (on a token
of at least 3 fields) fail with KeyLengthMismatch before key derivation and
before any cipher is constructed; decrypt draws no randomness, but encrypt
has already drawn the saltLength- and ivLength-byte random salt and IV
before validation runs. -/
theorem keyLength_mismatch_rejected (suite : CipherSuite) (rng : Nat → Nat)
    (pw text : String) (sL ivL : Nat) (alg : String) (it kL : Nat)
    (spec : Nat × Nat) (htext : text ≠ "")
    (hspec : algorithmSpecs alg = some spec) (hkL : kL ≠ spec.1) :
    encrypt suite rng pw text sL ivL alg it kL
      = (.error .keyLengthMismatch, [.drewRandom sL, .drewRandom ivL]) ∧
    (∀ (tok p0 p1 p2 : List Char) (rest : List (List Char)),
      splitSep ':' tok = p0 :: p1 :: p2 :: rest →
      decrypt suite pw tok alg it kL = (.error .keyLengthMismatch, [])) := by
  have hv : ∀ n, validateAlgorithmParameters alg kL n = .error .keyLengthMismatch := by
    intro n
    simp [validateAlgorithmParameters, hspec, hkL]
  constructor
  · unfold encrypt
    simp [htext, hv]
  · intro tok p0 p1 p2 rest hsp
    unfold decrypt
    rw [hsp]
    simp [decryptParts, hv]

/-- Counterexample to C2 as stated: on the encrypt error path with a
mismatched keyLength the failure is KeyLengthMismatch, but 48 random bytes
(the 32-byte salt and the 16-byte IV) have already been drawn, contradicting
that no random bytes are drawn before the failure. -/
theorem keyLength_mismatch_randomness_already_drawn :
    encrypt modelSuite (fun _ => 0) "p" "hi" 32 16 "aes-256-cbc" 10 16
      = (.error .keyLengthMismatch, [.drewRandom 32, .drewRandom 16]) ∧
    randomDrawn [.drewRandom 32, .drewRandom 16] = 48 ∧ 48 ≠ 0 := by
  decide

/-- Witness for C2 at a concrete input. -/
theorem keyLength_mismatch_rejected_witness :
    encrypt modelSuite (fun _ => 0) "p" "hi" 3 16 "aes-256-cbc" 7 16
      = (.error .keyLengthMismatch, [.drewRandom 3, .drewRandom 16]) ∧
    decrypt modelSuite "p" ("00:00:00".data) "aes-256-cbc" 7 16
      = (.error .keyLengthMismatch, []) :=
  ⟨(keyLength_mismatch_rejected modelSuite (fun _ => 0) "p" "hi" 3 16
      "aes-256-cbc" 7 16 (32, 16) (by decide) (by decide) (by decide)).1,
   (keyLength_mismatch_rejected modelSuite (fun _ => 0) "p" "hi" 3 16
      "aes-256-cbc" 7 16 (32, 16) (by decide) (by decide) (by decide)).2
      ("00:00:00".data) ("00".data) ("00".data) ("00".data) [] (by decide)⟩

/-- C5: every successful encrypt call returns a token of colon-separated
lowercase-hexadecimal fields in the order salt, IV, ciphertext, with a
fourth authentication-tag field exactly when the algorithm is a GCM variant;
CBC tokens have exactly 3 fields and GCM tokens exactly 4. -/
theorem encrypt_token_shape (suite : CipherSuite) (rng : Nat → Nat)
    (pw text : String) (sL ivL : Nat) (alg : String) (it kL : Nat)
    (tok : List Char) (evs : List CryptoEvent)
    (henc : encrypt suite rng pw text sL ivL alg it kL = (.ok tok, evs)) :
    (algIncludesGcm alg = false →
      splitSep ':' tok = [hexEncode (randBytes rng 0 sL),
        hexEncode (randBytes rng sL ivL),
        hexEncode (suite.cbcEnc alg
          (deriveKey suite pw (randBytes rng 0 sL) it kL)
          (randBytes rng sL ivL) text)]) ∧
    (algIncludesGcm alg = true →
      splitSep ':' tok = [hexEncode (randBytes rng 0 sL),
        hexEncode (randBytes rng sL ivL),
        hexEncode (suite.gcmEnc alg
          (deriveKey suite pw (randBytes rng 0 sL) it kL)
          (randBytes rng sL ivL) text).1,
        hexEncode (suite.gcmEnc alg
          (deriveKey suite pw (randBytes rng 0 sL) it kL)
          (randBytes rng sL ivL) text).2]) ∧
    (splitSep ':' tok).length = (if algIncludesGcm alg = true then 4 else 3) ∧
    (∀ f ∈ splitSep ':' tok, ∀ ch ∈ f, isLowerHexChar ch = true) := by
  unfold encrypt at henc
  by_cases ht : text = ""
  · rw [if_pos ht] at henc
    simp at henc
  · rw [if_neg ht] at henc
    cases hval : validateAlgorithmParameters alg kL ivL with
    | error e =>
      rw [hval] at henc
      simp at henc
    | ok u =>
      rw [hval] at henc
      cases hg : algIncludesGcm alg with
      | true =>
        rw [hg] at henc
        simp only [if_true, Prod.mk.injEq, Except.ok.injEq] at henc
        obtain ⟨rfl, rfl⟩ := henc
        refine ⟨?_, ?_, ?_, ?_⟩
        · intro h
          exact Bool.noConfusion h
        · intro _
          exact splitSep_token4 _ _ _ _
        · rw [splitSep_token4]
          rfl
        · intro f hf ch hch
          rw [splitSep_token4] at hf
          simp only [List.mem_cons, List.not_mem_nil, or_false] at hf
          rcases hf with rfl | rfl | rfl | rfl <;>
            exact mem_hexEncode_isLowerHex _ hch
      | false =>
        rw [hg] at henc
        simp only [Bool.false_eq_true, if_false, Prod.mk.injEq,
          Except.ok.injEq] at henc
        obtain ⟨rfl, rfl⟩ := henc
        refine ⟨?_, ?_, ?_, ?_⟩
        · intro _
          exact splitSep_token3 _ _ _
        · intro h
          exact Bool.noConfusion h
        · rw [splitSep_token3]
          rfl
        · intro f hf ch hch
          rw [splitSep_token3] at hf
          simp only [List.mem_cons, List.not_mem_nil, or_false] at hf
          rcases hf with rfl | rfl | rfl <;>
            exact mem_hexEncode_isLowerHex _ hch

/-- Witness for C5 at a concrete input: the concrete token produced by a CBC
encryption has exactly 3 colon-separated fields. -/
theorem encrypt_token_shape_witness :
    (splitSep ':' (hexEncode (randBytes (fun _ => 0) 0 1) ++ ':' ::
      (hexEncode (randBytes (fun _ => 0) 1 16) ++ ':' ::
        hexEncode (modelSuite.cbcEnc "aes-128-cbc"
          (deriveKey modelSuite "p" (randBytes (fun _ => 0) 0 1) 5 16)
          (randBytes (fun _ => 0) 1 16) "A")))).length = 3 := by
  have h := (encrypt_token_shape modelSuite (fun _ => 0) "p" "A" 1 16
      "aes-128-cbc" 5 16
      (hexEncode (randBytes (fun _ => 0) 0 1) ++ ':' ::
        (hexEncode (randBytes (fun _ => 0) 1 16) ++ ':' ::
          hexEncode (modelSuite.cbcEnc "aes-128-cbc"
            (deriveKey modelSuite "p" (randBytes (fun _ => 0) 0 1) 5 16)
            (randBytes (fun _ => 0) 1 16) "A")))
      [.drewRandom 1, .drewRandom 16, .derivedKey, .createdCipher] rfl).2.2.1
  rw [h]
  decide

/-- C8: deriveKey is deterministic — two calls with identical password, salt,
iteration count and key length yield identical key bytes — and the result
has exactly keyLength bytes, per the PBKDF2 contract of the library. -/
theorem deriveKey_deterministic_and_length (suite : CipherSuite)
    (hS : SuiteSound suite) (pw pw2 : String) (salt salt2 : List Nat)
    (it it2 kL kL2 : Nat) (hpw : pw = pw2) (hsalt : salt = salt2)
    (hit : it = it2) (hkL : kL = kL2) :
    deriveKey suite pw salt it kL = deriveKey suite pw2 salt2 it2 kL2 ∧
    (deriveKey suite pw salt it kL).length = kL := by
  subst hpw
  subst hsalt
  subst hit
  subst hkL
  exact ⟨rfl, hS.pbkdf2Len _ _ _ _⟩

/-- Witness for C8 at a concrete input. -/
theorem deriveKey_deterministic_and_length_witness :
    deriveKey modelSuite "p" [1, 2] 3 32 = deriveKey modelSuite "p" [1, 2] 3 32 ∧
    (deriveKey modelSuite "p" [1, 2] 3 32).length = 32 :=
  deriveKey_deterministic_and_length modelSuite modelSuite_sound "p" "p"
    [1, 2] [1, 2] 3 3 32 32 rfl rfl rfl rfl

/-- C9: encrypting under password A and decrypting under a different password
B fails with AuthenticationFailed for GCM variants, and for CBC variants
either fails with PaddingOrKeyError or returns output different from the
original plaintext, given that the cipher library rejects the mismatched
derived key (the overwhelming-probability event for distinct passwords). -/
theorem wrong_password_fails (suite : CipherSuite) (hS : SuiteSound suite)
    (rng : Nat → Nat) (pwA pwB text : String) (sL : Nat) (alg : String)
    (it kL ivL : Nat) (spec : Nat × Nat)
    (hspec : algorithmSpecs alg = some spec)
    (hkL : kL = spec.1) (hivL : ivL = spec.2) (htext : text ≠ "")
    (_hpw : pwA ≠ pwB)
    (hGcm : algIncludesGcm alg = true →
      suite.gcmDec alg (deriveKey suite pwB (randBytes rng 0 sL) it kL)
        (randBytes rng sL ivL)
        (suite.gcmEnc alg (deriveKey suite pwA (randBytes rng 0 sL) it kL)
          (randBytes rng sL ivL) text).1
        (suite.gcmEnc alg (deriveKey suite pwA (randBytes rng 0 sL) it kL)
          (randBytes rng sL ivL) text).2 = .error ())
    (hCbc : algIncludesGcm alg = false →
      suite.cbcDec alg (deriveKey suite pwB (randBytes rng 0 sL) it kL)
        (randBytes rng sL ivL)
        (suite.cbcEnc alg (deriveKey suite pwA (randBytes rng 0 sL) it kL)
          (randBytes rng sL ivL) text) ≠ .ok text) :
    ∀ tok, (encrypt suite rng pwA text sL ivL alg it kL).1 = .ok tok →
      (algIncludesGcm alg = true →
        (decrypt suite pwB tok alg it kL).1 = .error .authenticationFailed) ∧
      (algIncludesGcm alg = false →
        (decrypt suite pwB tok alg it kL).1 ≠ .ok text ∧
        ((decrypt suite pwB tok alg it kL).1 = .error .paddingOrKeyError ∨
          ∃ out, (decrypt suite pwB tok alg it kL).1 = .ok out)) := by
  subst hkL
  subst hivL
  have hv : validateAlgorithmParameters alg spec.1 spec.2 = .ok () := validate_ok hspec
  have hsalt := randBytes_lt rng 0 sL
  have hiv := randBytes_lt rng sL spec.2
  have hv' : validateAlgorithmParameters alg spec.1 (randBytes rng sL spec.2).length
      = .ok () := by rw [randBytes_length]; exact hv
  intro tok htok
  cases hg : algIncludesGcm alg with
  | true =>
    refine ⟨fun _ => ?_, fun h => Bool.noConfusion h⟩
    have henc : (encrypt suite rng pwA text sL spec.2 alg it spec.1).1
        = .ok (hexEncode (randBytes rng 0 sL) ++ ':' ::
          (hexEncode (randBytes rng sL spec.2) ++ ':' ::
            (hexEncode ((suite.gcmEnc alg
                (deriveKey suite pwA (randBytes rng 0 sL) it spec.1)
                (randBytes rng sL spec.2) text)).1 ++ ':' ::
              hexEncode ((suite.gcmEnc alg
                (deriveKey suite pwA (randBytes rng 0 sL) it spec.1)
                (randBytes rng sL spec.2) text)).2))) := by
      unfold encrypt
      simp [htext, hv, hg]
    obtain rfl := Except.ok.inj (htok.symm.trans henc)
    rw [decrypt_token4_gcm hg hsalt hiv (hS.gcmCtBytes _ _ _ _)
      (hS.gcmTagBytes _ _ _ _) hv']
    rw [hGcm hg]
  | false =>
    refine ⟨fun h => Bool.noConfusion h, fun _ => ?_⟩
    have henc : (encrypt suite rng pwA text sL spec.2 alg it spec.1).1
        = .ok (hexEncode (randBytes rng 0 sL) ++ ':' ::
          (hexEncode (randBytes rng sL spec.2) ++ ':' ::
            hexEncode (suite.cbcEnc alg
              (deriveKey suite pwA (randBytes rng 0 sL) it spec.1)
              (randBytes rng sL spec.2) text))) := by
      unfold encrypt
      simp [htext, hv, hg]
    obtain rfl := Except.ok.inj (htok.symm.trans henc)
    rw [decrypt_token3_cbc hg hsalt hiv (hS.cbcBytes _ _ _ _) hv']
    cases hdec : suite.cbcDec alg (deriveKey suite pwB (randBytes rng 0 sL) it spec.1)
        (randBytes rng sL spec.2)
        (suite.cbcEnc alg (deriveKey suite pwA (randBytes rng 0 sL) it spec.1)
          (randBytes rng sL spec.2) text) with
    | ok out =>
      refine ⟨?_, Or.inr ⟨out, rfl⟩⟩
      intro heq
      exact hCbc hg (hdec.trans (congrArg Except.ok (Except.ok.inj heq)))
    | error e =>
      exact ⟨fun heq => Except.noConfusion heq, Or.inl rfl⟩

/-- Witness for C9 at a concrete input: a GCM token encrypted under one
password fails to authenticate under another. -/
theorem wrong_password_fails_witness :
    ∃ tok, (encrypt modelSuite (fun _ => 0) "a" "hi" 1 12 "aes-256-gcm" 3 32).1
        = .ok tok ∧
      (decrypt modelSuite "bb" tok "aes-256-gcm" 3 32).1
        = .error .authenticationFailed := by
  refine ⟨_, rfl, ?_⟩
  exact ((wrong_password_fails modelSuite modelSuite_sound (fun _ => 0) "a" "bb"
    "hi" 1 "aes-256-gcm" 3 32 12 (32, 12) (by decide) rfl rfl (by decide)
    (by decide) (by intro hg; decide)
    (by intro h; exact absurd h (by decide))) _ rfl).1 (by decide)

end CrCrypt
